import Mathlib

/-!
Verification development for the Light Regional Council development-application
scraper.  The source program (scraper.ts, compiled as scraper.js) extracts
structured planning-application records from positioned text fragments of PDF
pages.  This file gives a shallow embedding of the extraction engine: JS
numbers are modelled as rationals, JS strings as `String` (with all string
operations re-implemented structurally over `List Char` so that they evaluate
inside the kernel), thrown exceptions as `Except Unit`, and the `undefined`
sentinel as `Option`.  Heights and widths of real fragments are positive
(see the data model), which is why modelling the JS division `q / 0 = Infinity`
with Lean's `q / 0 = 0` is harmless in every context below.
-/

set_option maxRecDepth 100000

deriving instance DecidableEq for Except

namespace LightScraper

/-- A bounding rectangle, from `interface Rectangle { x, y, width, height }`. -/
structure Rectangle where
  x : ℚ
  y : ℚ
  width : ℚ
  height : ℚ
deriving DecidableEq

/-- A positioned text fragment, from `interface Element extends Rectangle`
(the `confidence` field is never read by the engine and is omitted). -/
structure Element where
  text : String
  x : ℚ
  y : ℚ
  width : ℚ
  height : ℚ
deriving DecidableEq

/-- View an element as its bounding rectangle. -/
def Element.toRect (e : Element) : Rectangle := ⟨e.x, e.y, e.width, e.height⟩

/-- From `function intersect(rectangle1, rectangle2)`: axis-aligned rectangle
intersection, returning the zero rectangle when `x2 < x1` or `y2 < y1`. -/
def intersect (r1 r2 : Rectangle) : Rectangle :=
  let x1 := max r1.x r2.x
  let y1 := max r1.y r2.y
  let x2 := min (r1.x + r1.width) (r2.x + r2.width)
  let y2 := min (r1.y + r1.height) (r2.y + r2.height)
  if x2 ≥ x1 ∧ y2 ≥ y1 then ⟨x1, y1, x2 - x1, y2 - y1⟩ else ⟨0, 0, 0, 0⟩

/-- From `function getArea(rectangle)`: `width * height`. -/
def getArea (r : Rectangle) : ℚ := r.width * r.height

/-- From `function isVerticalOverlap(element1, element2)`. -/
def isVerticalOverlap (e1 e2 : Element) : Bool :=
  decide (e2.y < e1.y + e1.height) && decide (e2.y + e2.height > e1.y)

/-- From `function getVerticalOverlapPercentage(element1, element2)`: the
percentage of the second element's height lying inside the first's span. -/
def getVerticalOverlapPercentage (e1 e2 : Element) : ℚ :=
  let y1 := max e1.y e2.y
  let y2 := min (e1.y + e1.height) (e2.y + e2.height)
  if y2 < y1 then 0 else (y2 - y1) * 100 / e2.height

/-- From `function calculateDistance(element1, element2)`: squared Euclidean
distance between `element1`'s right-middle point and `element2`'s left-middle
point; `none` models the `Number.MAX_VALUE` sentinel returned when the second
element overlaps the first horizontally by more than 20 percent of its width. -/
def calculateDistance (e1 e2 : Element) : Option ℚ :=
  let p1x := e1.x + e1.width
  let p1y := e1.y + e1.height / 2
  let p2x := e2.x
  let p2y := e2.y + e2.height / 2
  if p2x < p1x - e1.width / 5 then none
  else some ((p2x - p1x) * (p2x - p1x) + (p2y - p1y) * (p2y - p1y))

/-- Comparison of two distances where `none` stands for `Number.MAX_VALUE`
(so `MAX_VALUE < MAX_VALUE` is false, a finite value is below `MAX_VALUE`). -/
def distLt : Option ℚ → Option ℚ → Bool
  | some a, some b => decide (a < b)
  | some _, none => true
  | none, _ => false

/-- From `function getRightElement(elements, element)`: the qualifying element
with the smallest rightward distance, or `none`.  The initial JS sentinel
`closestElement` lies at effectively infinite distance, so the first
qualifying candidate always replaces it. -/
def getRightElement (els : List Element) (e : Element) : Option Element :=
  els.foldl (fun best cand =>
    if isVerticalOverlap e cand
        && decide (getVerticalOverlapPercentage e cand > 50)
        && decide (cand.x > e.x + e.width)
        && decide (cand.x - (e.x + e.width) < 30)
        && (match best with
            | none => true
            | some b => distLt (calculateDistance e cand) (calculateDistance e b))
    then some cand else best) none

/-- From `function getRowTop(elements, startElement)`: the least `y` among the
elements overlapping the start element vertically by more than 50 percent. -/
def getRowTop (els : List Element) (s : Element) : ℚ :=
  els.foldl (fun top e =>
    if e.y < s.y + s.height ∧ e.y + e.height > s.y then
      if getVerticalOverlapPercentage s e > 50 then
        if e.y < top then e.y else top
      else top
    else top) s.y

/-! ## String utilities

JS string primitives used by the scraper, re-implemented structurally over
`List Char` so they evaluate inside the kernel.  `strTrim`, `strLower`,
`jsSplitSpace`, `stripWS` model `trim()`, `toLowerCase()`, `split(" ")` and
`replace(/\s/g, "")` respectively. -/

/-- Lower-case an ASCII letter, as `toLowerCase` does on the texts involved. -/
def charLower (c : Char) : Char :=
  if 'A' ≤ c ∧ c ≤ 'Z' then Char.ofNat (c.toNat + 32) else c

/-- JS `toLowerCase()`. -/
def strLower (s : String) : String := String.mk (s.data.map charLower)

/-- JS `trim()`: drop whitespace from both ends. -/
def strTrim (s : String) : String :=
  String.mk (((s.data.dropWhile Char.isWhitespace).reverse.dropWhile
    Char.isWhitespace).reverse)

/-- JS `replace(/\s/g, "")`: remove all whitespace characters. -/
def stripWS (s : String) : String :=
  String.mk (s.data.filter (fun c => !c.isWhitespace))

/-- Auxiliary for `jsSplitSpace`. -/
def splitSpaceAux : List Char → List Char → List String
  | [], cur => [String.mk cur.reverse]
  | c :: cs, cur =>
    if c = ' ' then String.mk cur.reverse :: splitSpaceAux cs []
    else splitSpaceAux cs (c :: cur)

/-- JS `split(" ")`: split on every single space character. -/
def jsSplitSpace (s : String) : List String := splitSpaceAux s.data []

/-- JS `join(" ")` on an array of strings. -/
def joinSpace : List String → String
  | [] => ""
  | t :: ts => ts.foldl (fun acc s => acc ++ " " ++ s) t

/-- Whether the first character of a string is the given character (used for
`startsWith("l")` on already trimmed and lower-cased text). -/
def firstCharIs (s : String) (c : Char) : Bool :=
  match s.data with
  | [] => false
  | d :: _ => d = c

/-- The test `/\/[0-9]{4}$/.test(text)`: the string ends with a slash followed
by exactly four digits. -/
def endsSlash4 (s : String) : Bool :=
  match s.data.reverse with
  | d1 :: d2 :: d3 :: d4 :: c :: _ =>
    d1.isDigit && d2.isDigit && d3.isDigit && d4.isDigit && decide (c = '/')
  | _ => false

/-! ## Edit distance and the fuzzy matcher -/

/-- One row-update step of the standard Levenshtein dynamic program. -/
def levNextRow (a : Char) : List Char → List ℕ → ℕ → List ℕ
  | [], _, _ => []
  | b :: bs, prev, left =>
    match prev with
    | [] => []
    | pdiag :: prest =>
      let pup := prest.headD (pdiag + 1)
      let cur := min (pup + 1) (min (left + 1) (pdiag + (if a = b then 0 else 1)))
      cur :: levNextRow a bs prest cur

/-- Levenshtein edit distance between two strings (row-based dynamic
program). -/
def levenshtein (s t : String) : ℕ :=
  let bs := t.data
  let row0 : List ℕ := List.range (bs.length + 1)
  let final := s.data.foldl (fun (st : List ℕ × ℕ) a =>
    let i := st.2 + 1
    (i :: levNextRow a bs st.1 i, i)) (row0, 0)
  (final.1).getLastD 0

/-- Modelled from the spec: the external `didyoumean2` library (§4.2 of the
spec), called with `caseSensitive: false`, `returnType: "first-closest-match"`,
`thresholdType: "edit-distance"` and `trimSpace: true` — the first candidate
whose edit distance from the query (both trimmed and lower-cased) is minimal
and at most the threshold, or `none`. -/
def didyoumeanBest (query : String) (candidates : List String)
    (threshold : ℕ) : Option String :=
  let q := strLower (strTrim query)
  let within := (candidates.map
      (fun c => (c, levenshtein q (strLower (strTrim c))))).filter
    (fun p => p.2 ≤ threshold)
  (within.foldl (fun acc p =>
      match acc with
      | none => some p
      | some a => if p.2 < a.2 then some p else acc) none).map Prod.fst

/-! ## Address normalisation (`function formatAddress(address)`) -/

/-- JS `tokens.slice(-n)`: the last `n` entries (the whole list if `n` is at
least its length). -/
def lastN (n : ℕ) (l : List String) : List String := l.drop (l.length - n)

/-- JS `tokens.splice(-n, n)`: everything but the last `n` entries. -/
def dropLastN (n : ℕ) (l : List String) : List String := l.take (l.length - n)

/-- JS `SuburbNames[key]` on the association list of suburb names. -/
def suburbLookup (suburbs : List (String × String)) (k : String) : String :=
  ((suburbs.find? (fun p => p.1 == k)).map Prod.snd).getD ""

/-- The `for (let index = 1; index <= 4; index++)` suburb search of
`formatAddress`: the first token-tail (of length 1 to 4) fuzzy-matching a
known suburb name at edit distance at most 2, together with the remaining
tokens. -/
def findSuburb (suburbs : List (String × String)) (tokens : List String) :
    Option (String × List String) :=
  [1, 2, 3, 4].findSome? (fun idx =>
    (didyoumeanBest (joinSpace (lastN idx tokens)) (suburbs.map Prod.fst) 2).map
      (fun m => (suburbLookup suburbs m, dropLastN idx tokens)))

/-- From `function formatAddress(address)` (scraper.ts lines 160-189,
scraper.js lines 527-550): trim, split on spaces, pop up to four trailing
tokens looking for a suburb name, and append the canonical suburb string.
Note: this version performs no stripping of a trailing parenthesised number
(only the other compiled variant at scraper.js lines 176-201 does). -/
def formatAddress (suburbs : List (String × String)) (address : String) :
    String :=
  let address := strTrim address
  if address = "" then ""
  else
    let tokens := jsSplitSpace address
    match findSuburb suburbs tokens with
    | none => address
    | some (suburbName, rest) =>
      let streetName := strTrim (joinSpace rest)
      strTrim (streetName ++ (if streetName = "" then "" else ", ") ++ suburbName)

/-- Reference mapping used by the spec's `formatAddress` example. -/
def portAugustaSuburbs : List (String × String) :=
  [("PORT AUGUSTA", "PORT AUGUSTA, SA 5700")]

/-! ## Dates (the `moment` calls of the source) -/

/-- Value of a decimal digit character. -/
def digitVal (c : Char) : ℕ := c.toNat - 48

/-- Numeric value of a list of decimal digit characters. -/
def digitsToNat (cs : List Char) : ℕ := cs.foldl (fun a c => a * 10 + digitVal c) 0

/-- Decimal rendering of a natural number, as JS template interpolation and
`moment.format` produce it. -/
def natToStringAux : ℕ → ℕ → List Char
  | 0, _ => []
  | fuel + 1, n =>
    if n < 10 then [Nat.digitChar n]
    else natToStringAux fuel (n / 10) ++ [Nat.digitChar (n % 10)]

/-- Decimal rendering of a natural number. -/
def natToString (n : ℕ) : String := String.mk (natToStringAux (n + 1) n)

/-- A calendar date. -/
structure DateYMD where
  year : ℕ
  month : ℕ
  day : ℕ
deriving DecidableEq

/-- Gregorian leap-year rule. -/
def isLeapYear (y : ℕ) : Bool :=
  (decide (y % 4 = 0) && decide (y % 100 ≠ 0)) || decide (y % 400 = 0)

/-- Days in a month. -/
def daysInMonth (y m : ℕ) : ℕ :=
  if m = 2 then (if isLeapYear y then 29 else 28)
  else if m = 4 ∨ m = 6 ∨ m = 9 ∨ m = 11 then 30
  else 31

/-- Auxiliary for `splitSlash`. -/
def splitSlashAux : List Char → List Char → List String
  | [], cur => [String.mk cur.reverse]
  | c :: cs, cur =>
    if c = '/' then String.mk cur.reverse :: splitSlashAux cs []
    else splitSlashAux cs (c :: cur)

/-- Split a string on every slash. -/
def splitSlash (s : String) : List String := splitSlashAux s.data []

/-- Models the external `moment(text, "D/MM/YYYY", true)` strict parse used by
the source: a 1-2 digit day, a slash, exactly 2 digit month, a slash, exactly
4 digit year, nothing else; `none` when the parse fails or the date is not a
valid calendar date (`isValid()` false). -/
def parseDMMYYYY (s : String) : Option DateYMD :=
  match splitSlash s with
  | [ds, ms, ys] =>
    if (decide (ds.data.length = 1) || decide (ds.data.length = 2))
        && ds.data.all Char.isDigit
        && decide (ms.data.length = 2) && ms.data.all Char.isDigit
        && decide (ys.data.length = 4) && ys.data.all Char.isDigit then
      let d := digitsToNat ds.data
      let m := digitsToNat ms.data
      let y := digitsToNat ys.data
      if 1 ≤ m ∧ m ≤ 12 ∧ 1 ≤ d ∧ d ≤ daysInMonth y m then some ⟨y, m, d⟩
      else none
    else none
  | _ => none

/-- Zero-padded two-digit rendering. -/
def pad2 (n : ℕ) : String := if n < 10 then "0" ++ natToString n else natToString n

/-- Models `moment.format("YYYY-MM-DD")` on dates parsed by `parseDMMYYYY`
(whose years always have four digits). -/
def formatYYYYMMDD (d : DateYMD) : String :=
  natToString d.year ++ "-" ++ pad2 d.month ++ "-" ++ pad2 d.day

/-! ## Records and per-band field extraction
(`function parseApplicationElements`) -/

/-- The record constructed for one development application. -/
structure Record where
  applicationNumber : String
  address : String
  description : String
  informationUrl : String
  commentUrl : String
  scrapeDate : String
  receivedDate : String
deriving DecidableEq

/-- The `const CommentUrl` of the source. -/
def CommentUrl : String := "mailto:light@light.sa.gov.au"

/-- The stable left-to-right sort `elements.sort(xComparer)`. -/
def xSorted (es : List Element) : List Element :=
  List.insertionSort (fun a b => a.x ≤ b.x) es

/-- The application-number candidates: band fragments strictly left of the
"Applicant" anchor whose `y` is within two start-marker heights of the band's
start, sorted left to right. -/
def appNumberCandidates (els : List Element) (start applicant : Element) :
    List Element :=
  xSorted (els.filter (fun e =>
    decide (e.x < applicant.x) && decide (e.y < start.y + 2 * start.height)))

/-- The progressive-concatenation loop of the application-number search:
concatenate the whitespace-stripped texts one fragment at a time and accept
the first concatenation that ends with a slash and four digits. -/
def findAppNumberGo (acc : String) : List Element → Option String
  | [] => none
  | e :: rest =>
    let t := acc ++ stripWS e.text
    if endsSlash4 t then some t else findAppNumberGo t rest

/-- The application-number search of `parseApplicationElements`. -/
def findApplicationNumber (els : List Element) (start applicant : Element) :
    Option String :=
  findAppNumberGo "" (appNumberCandidates els start applicant)

/-- The probe-rectangle test shared by the application-date and received-date
searches: the probe sits at the anchor's x/width/height but at the candidate's
own y; the candidate must have positive area, more than half the probe's area,
and must overlap the probe by more than three quarters of its own area. -/
def dateProbe (anchor e : Element) : Bool :=
  let rect : Rectangle := ⟨anchor.x, e.y, anchor.width, anchor.height⟩
  decide (getArea e.toRect > 0) &&
  decide (getArea e.toRect > 1 / 2 * getArea rect) &&
  decide (getArea (intersect e.toRect rect) > 3 / 4 * getArea e.toRect)

/-- The application-date search: first band fragment passing the probe test. -/
def findApplicationDateElement (els : List Element) (anchor : Element) :
    Option Element :=
  els.find? (dateProbe anchor)

/-- The received-date search: first band fragment passing the probe test that
lies strictly below the application-date fragment and whose trimmed text
parses as a strict `D/MM/YYYY` date. -/
def findReceivedDateElement (els : List Element) (anchor ade : Element) :
    Option Element :=
  els.find? (fun e =>
    dateProbe anchor e && decide (e.y > ade.y + ade.height) &&
    (parseDMMYYYY (strTrim e.text)).isSome)

/-- The address text: band fragments right of the application-date fragment,
vertically overlapping it by more than half, and left of the "Proposal" anchor
minus half its height, sorted left to right and joined without separator. -/
def addressText (els : List Element) (ade proposal : Element) : String :=
  String.join ((xSorted (els.filter (fun e =>
    decide (e.x > ade.x + ade.width) &&
    decide (getVerticalOverlapPercentage ade e > 50) &&
    decide (e.x < proposal.x - proposal.height / 2)))).map Element.text)

/-- The description text when the "Referrals/" anchor is present: fragments
between the "Proposal" column (with a half-height leftward tolerance) and the
"Referrals/" anchor, joined with a space inserted at inferred line breaks. -/
def descriptionText (els : List Element) (proposal referrals : Element) :
    String :=
  let des := els.filter (fun e =>
    decide (e.x > proposal.x - proposal.height / 2) &&
    decide (e.x < referrals.x))
  (des.foldl (fun (st : String × Option ℚ) e =>
      let s1 := match st.2 with
        | some py => if e.y > py + e.height / 2 then st.1 ++ " " else st.1
        | none => st.1
      (s1 ++ e.text, some e.y)) ("", none)).1

/-- The description text of a band: empty when the optional "Referrals/"
anchor is absent (the source guards the whole description loop with
`if (referralsElement !== undefined)`). -/
def rawDescription (els : List Element) (proposal : Element) :
    Option Element → String
  | none => ""
  | some re => descriptionText els proposal re

/-- From `function parseApplicationElements` (scraper.ts lines 193-298,
scraper.js lines 552-637): extract one record from one row band, or `none`
when the application number or the application date cannot be found.  Note:
the source computes `receivedDateElement` (falling back to the application
date element) but then parses `applicationDateElement.text` regardless —
`let receivedDate = moment(applicationDateElement.text.trim(), "D/MM/YYYY",
true)` — so the found received-date fragment is never consulted; this
embedding reproduces that behaviour faithfully. -/
def parseApplicationElements (suburbs : List (String × String))
    (today url : String) (els : List Element)
    (startElement applicantElement applicationElement proposalElement : Element)
    (referralsElement : Option Element) : Option Record :=
  match findApplicationNumber els startElement applicantElement with
  | none => none
  | some num =>
    match findApplicationDateElement els applicationElement with
    | none => none
    | some ade =>
      let receivedDate := parseDMMYYYY (strTrim ade.text)
      let addr := formatAddress suburbs (addressText els ade proposalElement)
      let desc := rawDescription els proposalElement referralsElement
      some {
        applicationNumber := num
        address := addr
        description := if strTrim desc = "" then "No Description Provided" else desc
        informationUrl := url
        commentUrl := CommentUrl
        scrapeDate := today
        receivedDate := match receivedDate with
          | some dt => formatYYYYMMDD dt
          | none => "" }

/-! ### Concrete row band exhibiting the received-date behaviour (C1) -/

/-- The "Applicant" column anchor of the C1 fixture. -/
def c1Applicant : Element := ⟨"Applicant", 50, 0, 40, 10⟩

/-- The "Application" column anchor of the C1 fixture. -/
def c1AppAnchor : Element := ⟨"Application", 300, 0, 40, 10⟩

/-- The "Proposal" column anchor of the C1 fixture. -/
def c1Proposal : Element := ⟨"Proposal", 500, 0, 40, 10⟩

/-- Start marker of the C1 fixture. -/
def c1Marker : Element := ⟨"Lodgement", 100, 15, 50, 10⟩

/-- Application-number fragment of the C1 fixture. -/
def c1Num : Element := ⟨"123/4567", 10, 16, 30, 10⟩

/-- Application-date fragment of the C1 fixture. -/
def c1AppDate : Element := ⟨"1/03/2018", 300, 20, 40, 10⟩

/-- Received-date fragment of the C1 fixture: strictly below the application
date, passes the probe test, and parses as a strict `D/MM/YYYY` date. -/
def c1RecvDate : Element := ⟨"2/03/2018", 300, 40, 40, 10⟩

/-- The C1 row band, in reading order. -/
def c1Band : List Element := [c1Marker, c1Num, c1AppDate, c1RecvDate]

/-! ## Start-marker detection (`function findStartElements(elements)`) -/

/-- The three-threshold match test of the marker walk: an exact `"lodgement"`
match records threshold 0, otherwise a fuzzy match at edit distance 1 records
threshold 1, otherwise at edit distance 2 records threshold 2.  The recorded
match (the source's `{ element, threshold }` object) carries no `text`
property. -/
def matchesAt (text : String) (cur : Element) : List (Element × ℕ) :=
  if text = "lodgement" then [(cur, 0)]
  else if (didyoumeanBest text ["Lodgement"] 1).isSome then [(cur, 1)]
  else if (didyoumeanBest text ["Lodgement"] 2).isSome then [(cur, 2)]
  else []

/-- The `do ... while` rightward walk of `findStartElements`: append the
current fragment, stop once the accumulated stripped text reaches length 10,
test it against "Lodgement" once it reaches length 8, and continue with the
right neighbour while one exists and fewer than 10 fragments are accumulated.
The fuel argument only bounds the recursion; it starts at 10 and is never
exhausted because the walk stops at 10 accumulated fragments. -/
def walkGo (els : List Element) :
    ℕ → Element → List Element → List (Element × ℕ) → List (Element × ℕ)
  | fuel, cur, acc, ms =>
    let acc1 := acc ++ [cur]
    let text := strLower (stripWS (String.join (acc1.map Element.text)))
    if text.length ≥ 10 then ms
    else
      let ms1 := if text.length ≥ 8 then ms ++ matchesAt text cur else ms
      match getRightElement els cur with
      | none => ms1
      | some nxt =>
        if acc1.length < 10 then
          match fuel with
          | 0 => ms1
          | f + 1 => walkGo els f nxt acc1 ms1
        else ms1

/-- The `matches.reduce` of `findStartElements` (scraper.ts lines 337-343,
scraper.js lines 666-672).  The source's tie branch evaluates
`current.text.trim()`, but the accumulated match objects are
`{ element, threshold }` and have no `text` property, so two matches with
equal thresholds raise a TypeError — modelled by `Except.error ()`. -/
def bestMatchJS (ms : List (Element × ℕ)) : Except Unit (Option (Element × ℕ)) :=
  ms.foldlM (fun acc cur =>
    match acc with
    | none => Except.ok (some cur)
    | some prev =>
      if cur.2 < prev.2 then Except.ok (some cur)
      else if cur.2 = prev.2 then Except.error ()
      else Except.ok (some prev)) none

/-- From `function findStartElements(elements)`: walk from every fragment
whose trimmed lower-cased text starts with "l", choose the best match of each
walk, and sort the chosen fragments by `y`.  A TypeError thrown by the
best-match reduce propagates to the caller. -/
def findStartElements (els : List Element) : Except Unit (List Element) := do
  let ls := els.filter (fun e => firstCharIs (strLower (strTrim e.text)) 'l')
  let starts ← ls.foldlM (fun (acc : List Element) e => do
    let ms := walkGo els 10 e [] []
    if ms.isEmpty then pure acc
    else
      match (← bestMatchJS ms) with
      | some bm => pure (acc ++ [bm.1])
      | none => pure acc) []
  pure (List.insertionSort (fun a b => a.y ≤ b.y) starts)

/-! ### Concrete page on which the best-match tie throws (C4) -/

/-- A fragment reading "lodgemen" (edit distance 1 from "Lodgement"). -/
def c4El1 : Element := ⟨"lodgemen", 0, 0, 40, 10⟩

/-- Its right neighbour "x": the walk accumulates "lodgemenx", again at edit
distance 1, producing a second match with the same threshold. -/
def c4El2 : Element := ⟨"x", 41, 0, 5, 10⟩

/-- The two-fragment page for C4. -/
def c4Page : List Element := [c4El1, c4El2]

/-! ## Row bands (the grouping loop of `parsePdf`) -/

/-- The `raisedStartElement` of `parsePdf`: the start marker with its `y`
lowered by half its height (leeway). -/
def raisedBy (s : Element) : Element := { s with y := s.y - s.height / 2 }

/-- Band membership: `element.y >= rowTop && element.y + element.height <
nextRowTop`; `none` models `Number.MAX_VALUE` as the bottom of the last band
(every fragment lies above it). -/
def bandPred (top : ℚ) (bottom : Option ℚ) (e : Element) : Bool :=
  decide (e.y ≥ top) && (match bottom with
    | none => true
    | some b => decide (e.y + e.height < b))

/-- The bottom of a band, given the remaining (later) start markers:
`getRowTop` of the next (unraised) marker, or no bottom (`Number.MAX_VALUE`)
for the last band. -/
def bandBottom (els : List Element) : List Element → Option ℚ
  | [] => none
  | s2 :: _ => some (getRowTop els s2)

/-- From the row-band loop of `parsePdf` (scraper.ts lines 424-442,
scraper.js lines 709-726): band `i` has top `getRowTop` of the raised marker
`i` and bottom `getRowTop` of the (unraised) marker `i+1`, or no bottom for
the last band. -/
def bands (els : List Element) : List Element → List (Element × List Element)
  | [] => []
  | s :: rest =>
    (s, els.filter (bandPred (getRowTop els (raisedBy s)) (bandBottom els rest)))
      :: bands els rest

/-! ## Duplicate application-number resolution (`parsePdf` accumulation) -/

/-- One accumulated record blocks a candidate when it has the same
application number but differs in address, description or received date. -/
def differingCollision (o r : Record) : Bool :=
  o.applicationNumber == r.applicationNumber &&
  (o.address != r.address || o.description != r.description ||
    o.receivedDate != r.receivedDate)

/-- The `developmentApplications.some(...)` test of the suffixing loop. -/
def hasConflict (acc : List Record) (r : Record) : Bool :=
  acc.any (fun o => differingCollision o r)

/-- Replace a record's application number. -/
def withNumber (r : Record) (n : String) : Record :=
  { r with applicationNumber := n }

/-- The suffixed number `` `${applicationNumber} (${suffix})` ``. -/
def suffixed (orig : String) (n : ℕ) : String :=
  orig ++ " (" ++ natToString n ++ ")"

/-- The `while` suffixing loop: try `orig (1)`, `orig (2)`, ... until no
differing-content collision remains.  The fuel only bounds the recursion; at
`acc.length + 1` it cannot run out (at most `acc.length` suffixed numbers can
collide), which `resolveGo_reaches_free` below makes precise. -/
def resolveGo (acc : List Record) (orig : String) (r : Record) :
    ℕ → ℕ → Record
  | 0, n => withNumber r (suffixed orig n)
  | fuel + 1, n =>
    if hasConflict acc (withNumber r (suffixed orig n)) then
      resolveGo acc orig r fuel (n + 1)
    else withNumber r (suffixed orig n)

/-- The whole duplicate-resolution step for one freshly parsed record
(scraper.ts lines 449-462, scraper.js lines 741-753). -/
def resolveNumber (acc : List Record) (r : Record) : Record :=
  if hasConflict acc r then resolveGo acc r.applicationNumber r (acc.length + 1) 1
  else r

/-- The per-page record accumulation loop of `parsePdf`: parse each band,
skip bands whose parse fails, resolve duplicate numbers against everything
accumulated so far (across the whole document), and append. -/
def assembleGroups (suburbs : List (String × String)) (today url : String)
    (applicant application proposal : Element) (referrals : Option Element) :
    List Record → List (Element × List Element) → List Record
  | acc, [] => acc
  | acc, (s, ges) :: rest =>
    match parseApplicationElements suburbs today url ges s applicant
        application proposal referrals with
    | none =>
      assembleGroups suburbs today url applicant application proposal
        referrals acc rest
    | some r =>
      assembleGroups suburbs today url applicant application proposal
        referrals (acc ++ [resolveNumber acc r]) rest

/-! ## JS `Number(...)` conversion (for the page-number test) -/

/-- Whether the text matches `/[0-9]+/`. -/
def containsDigit (s : String) : Bool := s.data.any Char.isDigit

/-- Value of a hexadecimal digit character. -/
def hexDigitVal (c : Char) : Option ℕ :=
  if c.isDigit then some (c.toNat - 48)
  else if 'a' ≤ c ∧ c ≤ 'f' then some (c.toNat - 87)
  else if 'A' ≤ c ∧ c ≤ 'F' then some (c.toNat - 55)
  else none

/-- Value of a non-empty digit string in the given radix, `none` on any
invalid digit. -/
def radixVal (radix : ℕ) (cs : List Char) : Option ℕ :=
  if cs.isEmpty then none
  else cs.foldl (fun acc c =>
    match acc with
    | none => none
    | some a =>
      match hexDigitVal c with
      | some v => if v < radix then some (a * radix + v) else none
      | none => none) (some 0)

/-- The exponent tail of a JS decimal literal: an optional sign and at least
one digit, consuming the rest of the string. -/
def parseExpTail (sign mantissa : ℚ) (r : List Char) : Option ℚ :=
  let st : Bool × List Char := match r with
    | '+' :: t => (false, t)
    | '-' :: t => (true, t)
    | t => (false, t)
  let ed := st.2.takeWhile Char.isDigit
  let rest := st.2.dropWhile Char.isDigit
  if ed.isEmpty || !rest.isEmpty then none
  else
    let e : ℕ := digitsToNat ed
    some (sign * mantissa * (if st.1 then 1 / (10 : ℚ) ^ e else (10 : ℚ) ^ e))

/-- A JS decimal number literal: optional sign, integer part, optional
fraction, optional exponent, at least one digit overall. -/
def parseDecCore (cs : List Char) : Option ℚ :=
  let sg : ℚ × List Char := match cs with
    | '+' :: r => (1, r)
    | '-' :: r => (-1, r)
    | r => (1, r)
  let ip := sg.2.takeWhile Char.isDigit
  let rest1 := sg.2.dropWhile Char.isDigit
  let fr : List Char × List Char := match rest1 with
    | '.' :: r => (r.takeWhile Char.isDigit, r.dropWhile Char.isDigit)
    | r => ([], r)
  if ip.isEmpty && fr.1.isEmpty then none
  else
    let mantissa : ℚ :=
      (digitsToNat ip : ℚ) + (digitsToNat fr.1 : ℚ) / (10 : ℚ) ^ fr.1.length
    match fr.2 with
    | [] => some (sg.1 * mantissa)
    | 'e' :: r => parseExpTail sg.1 mantissa r
    | 'E' :: r => parseExpTail sg.1 mantissa r
    | _ => none

/-- Models JS `Number(text)` on strings: `none` stands for `NaN`.  (The
`"Infinity"` forms also map to `none` here; they contain no digit, so the
page-number condition below — which conjoins a digit test — is unaffected.) -/
def jsToNumber (s : String) : Option ℚ :=
  match (strTrim s).data with
  | [] => some 0
  | '0' :: 'x' :: r => (radixVal 16 r).map (fun n => (n : ℚ))
  | '0' :: 'X' :: r => (radixVal 16 r).map (fun n => (n : ℚ))
  | '0' :: 'o' :: r => (radixVal 8 r).map (fun n => (n : ℚ))
  | '0' :: 'O' :: r => (radixVal 8 r).map (fun n => (n : ℚ))
  | '0' :: 'b' :: r => (radixVal 2 r).map (fun n => (n : ℚ))
  | '0' :: 'B' :: r => (radixVal 2 r).map (fun n => (n : ℚ))
  | t => parseDecCore t

/-- The page-number test of `parsePdf` (scraper.ts lines 391-395):
`/[0-9]+/.test(text) && Number(text) < 1000` (a `NaN` comparison is false). -/
def pageNumberCond (e : Element) : Bool :=
  containsDigit e.text && (match jsToNumber e.text with
    | some q => decide (q < 1000)
    | none => false)

/-! ## The page driver (`async function parsePdf(url)`, minus the I/O) -/

/-- The reading-order sort `elements.sort(elementComparer)`: by `y`, then by
`x` (stable, as JS `Array.prototype.sort` is). -/
def sortByYX (els : List Element) : List Element :=
  List.insertionSort (fun a b => a.y < b.y ∨ (a.y = b.y ∧ a.x ≤ b.x)) els

/-- The page-number removal: if the last fragment of the sorted page passes
`pageNumberCond`, pop it; otherwise keep the list unchanged. -/
def pageElements (els0 : List Element) : List Element :=
  match els0.getLast? with
  | none => els0
  | some l => if pageNumberCond l then els0.dropLast else els0

/-- The heading-anchor lookup `elements.find(element => element.text.trim()
=== label)`. -/
def findAnchor (els : List Element) (label : String) : Option Element :=
  els.find? (fun e => strTrim e.text == label)

/-- One page of `parsePdf` (scraper.ts lines 366-463), threading the
document-level accumulated record list `acc`: sort the fragments into reading
order, drop a trailing page number, reject the page (keeping `acc`) when the
"Applicant", "Application" or "Proposal" anchor is missing, otherwise compute
the row bands from the start markers and accumulate each band's record.  On
an empty page the source reads `elements[elements.length - 1].text` of
`undefined` and throws a TypeError, modelled by `Except.error ()`; a
TypeError from `findStartElements` propagates likewise. -/
def parsePageInto (suburbs : List (String × String)) (today url : String)
    (acc : List Record) (elsRaw : List Element) : Except Unit (List Record) :=
  let els0 := sortByYX elsRaw
  match els0.getLast? with
  | none => Except.error ()
  | some _ =>
    let els := pageElements els0
    match findAnchor els "Applicant" with
    | none => Except.ok acc
    | some applicant =>
      match findAnchor els "Application" with
      | none => Except.ok acc
      | some application =>
        match findAnchor els "Proposal" with
        | none => Except.ok acc
        | some proposal => do
          let starts ← findStartElements els
          let groups := bands els starts
          pure (assembleGroups suburbs today url applicant application
            proposal (findAnchor els "Referrals/") acc groups)

/-- The whole-document loop of `parsePdf`: pages processed sequentially, the
accumulated record list threaded through; an exception on a page aborts the
remaining pages (the promise rejects). -/
def parseDocument (suburbs : List (String × String)) (today url : String)
    (pages : List (List Element)) : Except Unit (List Record) :=
  pages.foldlM (parsePageInto suburbs today url) []

/-! ### Concrete page for the band-overlap counterexample (C5) -/

/-- First start marker of the C5 page. -/
def c5M1 : Element := ⟨"Lodgement", 0, 0, 50, 10⟩

/-- Second start marker of the C5 page. -/
def c5M2 : Element := ⟨"Lodgement", 0, 100, 50, 10⟩

/-- A small fragment sitting between the raised top of the second band and
the unraised top of the second marker. -/
def c5F : Element := ⟨"x", 60, 96, 5, 2⟩

/-- The C5 page, in reading order. -/
def c5Page : List Element := [c5M1, c5F, c5M2]

/-! ### Concrete page for the page-number removal witness (C10) -/

/-- A heading fragment kept by the page-number removal. -/
def c10A : Element := ⟨"Applicant", 0, 0, 10, 10⟩

/-- A trailing page-number fragment "3". -/
def c10Num : Element := ⟨"3", 0, 50, 5, 5⟩

/-- The C10 page, already in reading order. -/
def c10Page : List Element := [c10A, c10Num]

/-- The whitespace-stripped concatenation of a fragment list's texts (what
the application-number loop builds from the first `k` sorted candidates). -/
def concatStrip : List Element → String
  | [] => ""
  | e :: rest => stripWS e.text ++ concatStrip rest

/-! ### Concrete records for the duplicate-suffixing witness (C7) -/

/-- An accumulated record. -/
def c7r1 : Record := ⟨"11/2020", "a", "d1", "u", "c", "s", "2020-01-01"⟩

/-- A record with the same application number but differing description. -/
def c7r2 : Record := ⟨"11/2020", "a", "d2", "u", "c", "s", "2020-01-01"⟩

/-! # Theorems -/

/-! ## String helper lemmas -/

/-- Appending the empty string on the right is the identity. -/
theorem str_append_empty (s : String) : s ++ "" = s := by
  apply String.ext
  have h0 : ("" : String).data = [] := rfl
  simp [String.data_append, h0]

/-- Appending the empty string on the left is the identity. -/
theorem str_empty_append (s : String) : "" ++ s = s := by
  apply String.ext
  have h0 : ("" : String).data = [] := rfl
  simp [String.data_append, h0]

/-- String append is associative. -/
theorem str_append_assoc (a b c : String) : a ++ b ++ c = a ++ (b ++ c) := by
  apply String.ext
  simp [String.data_append]

/-! ## Helper lemmas -/

/-- Sorting a non-empty page leaves it non-empty. -/
theorem sortByYX_ne_nil {l : List Element} (h : l ≠ []) : sortByYX l ≠ [] := by
  intro h0
  apply h
  have hp := List.perm_insertionSort
    (fun a b : Element => a.y < b.y ∨ (a.y = b.y ∧ a.x ≤ b.x)) l
  rw [sortByYX] at h0
  rw [h0] at hp
  exact hp.symm.eq_nil

/-- Membership is preserved backwards through the reading-order sort. -/
theorem mem_sortByYX {e : Element} {l : List Element} (h : e ∈ sortByYX l) :
    e ∈ l :=
  ((List.perm_insertionSort _ l).mem_iff).mp h

/-- Membership is preserved backwards through the page-number removal. -/
theorem mem_pageElements {e : Element} {l : List Element}
    (h : e ∈ pageElements l) : e ∈ l := by
  unfold pageElements at h
  split at h
  · exact h
  · split at h
    · exact List.Sublist.mem h (List.dropLast_sublist _)
    · exact h

/-- A page on which every fragment's trimmed text differs from one of the
required heading labels is rejected: `parsePageInto` returns the accumulated
records unchanged. -/
theorem parsePageInto_missing_anchor (suburbs : List (String × String))
    (today url : String) (acc : List Record) (bad : List Element)
    (hne : bad ≠ [])
    (hmiss : (∀ e ∈ bad, strTrim e.text ≠ "Applicant") ∨
      (∀ e ∈ bad, strTrim e.text ≠ "Application") ∨
      (∀ e ∈ bad, strTrim e.text ≠ "Proposal")) :
    parsePageInto suburbs today url acc bad = Except.ok acc := by
  have hsne := sortByYX_ne_nil hne
  have hl : (sortByYX bad).getLast? = some ((sortByYX bad).getLast hsne) :=
    List.getLast?_eq_getLast _ hsne
  have key : ∀ label, (∀ e ∈ bad, strTrim e.text ≠ label) →
      findAnchor (pageElements (sortByYX bad)) label = none := by
    intro label hlab
    apply List.find?_eq_none.mpr
    intro x hx
    have hxb : x ∈ bad := mem_sortByYX (mem_pageElements hx)
    simp only [beq_iff_eq]
    exact hlab x hxb
  unfold parsePageInto
  dsimp only
  rw [hl]
  rcases hmiss with hm | hm | hm
  · rw [key "Applicant" hm]
  · cases hA : findAnchor (pageElements (sortByYX bad)) "Applicant" with
    | none => rfl
    | some a => rw [key "Application" hm]
  · cases hA : findAnchor (pageElements (sortByYX bad)) "Applicant" with
    | none => rfl
    | some a =>
      cases hB : findAnchor (pageElements (sortByYX bad)) "Application" with
      | none => rfl
      | some b => rw [key "Proposal" hm]

/-- Skipping a rejected page commutes with the document fold, for any
accumulated state. -/
theorem foldl_pages_skip (suburbs : List (String × String)) (today url : String)
    (bad : List Element) (hne : bad ≠ [])
    (hmiss : (∀ e ∈ bad, strTrim e.text ≠ "Applicant") ∨
      (∀ e ∈ bad, strTrim e.text ≠ "Application") ∨
      (∀ e ∈ bad, strTrim e.text ≠ "Proposal")) :
    ∀ (pages1 pages2 : List (List Element)) (acc : List Record),
      List.foldlM (parsePageInto suburbs today url) acc (pages1 ++ bad :: pages2) =
      List.foldlM (parsePageInto suburbs today url) acc (pages1 ++ pages2) := by
  intro pages1
  induction pages1 with
  | nil =>
    intro pages2 acc
    simp only [List.nil_append, List.foldlM_cons]
    rw [parsePageInto_missing_anchor suburbs today url acc bad hne hmiss]
    rfl
  | cons p ps ih =>
    intro pages2 acc
    simp only [List.cons_append, List.foldlM_cons]
    cases hp : parsePageInto suburbs today url acc p with
    | error e => rfl
    | ok acc2 => exact ih pages2 acc2

/-! ## Claim theorems -/

/-- C9: for all rectangles `a` and `b`, `area (intersect a b)` equals
`area (intersect b a)`, and whenever the projections of the two rectangles on
the x-axis or on the y-axis are disjoint, `intersect a b` is the zero
rectangle `{0, 0, 0, 0}`. -/
theorem intersect_area_symm_and_disjoint_zero (a b : Rectangle) :
    getArea (intersect a b) = getArea (intersect b a) ∧
    ((a.x + a.width < b.x ∨ b.x + b.width < a.x ∨
      a.y + a.height < b.y ∨ b.y + b.height < a.y) →
      intersect a b = ⟨0, 0, 0, 0⟩) := by
  have hsymm : intersect a b = intersect b a := by
    unfold intersect
    rw [max_comm a.x b.x, max_comm a.y b.y,
      min_comm (a.x + a.width) (b.x + b.width),
      min_comm (a.y + a.height) (b.y + b.height)]
  refine ⟨by rw [hsymm], fun hd => ?_⟩
  unfold intersect
  dsimp only
  split_ifs with h
  · exfalso
    have hx1 : min (a.x + a.width) (b.x + b.width) ≥ max a.x b.x := h.1
    have hy1 : min (a.y + a.height) (b.y + b.height) ≥ max a.y b.y := h.2
    have h1 := min_le_left (a.x + a.width) (b.x + b.width)
    have h2 := min_le_right (a.x + a.width) (b.x + b.width)
    have h3 := le_max_left a.x b.x
    have h4 := le_max_right a.x b.x
    have h5 := min_le_left (a.y + a.height) (b.y + b.height)
    have h6 := min_le_right (a.y + a.height) (b.y + b.height)
    have h7 := le_max_left a.y b.y
    have h8 := le_max_right a.y b.y
    rcases hd with hc | hc | hc | hc <;> linarith
  · rfl

/-- Witness for C9 at concrete rectangles with disjoint x-projections. -/
theorem intersect_area_symm_and_disjoint_zero_witness :
    intersect ⟨0, 0, 1, 1⟩ ⟨5, 0, 1, 1⟩ = ⟨0, 0, 0, 0⟩ ∧
    getArea (intersect ⟨0, 0, 1, 1⟩ ⟨5, 0, 1, 1⟩) =
      getArea (intersect ⟨5, 0, 1, 1⟩ ⟨0, 0, 1, 1⟩) :=
  ⟨(intersect_area_symm_and_disjoint_zero ⟨0, 0, 1, 1⟩ ⟨5, 0, 1, 1⟩).2
      (Or.inl (by norm_num)),
    (intersect_area_symm_and_disjoint_zero ⟨0, 0, 1, 1⟩ ⟨5, 0, 1, 1⟩).1⟩

/-- C2 counterexample: with the mapping `"PORT AUGUSTA" -> "PORT AUGUSTA, SA
5700"`, `formatAddress "7 McAdam RD PORT AUGUSTA (3743)"` does not return the
claimed `"7 McAdam RD, PORT AUGUSTA, SA 5700"` — the cited `formatAddress`
never strips the parenthesised suffix, so the suffix defeats the suburb
match. -/
theorem formatAddress_suffix_cex :
    formatAddress portAugustaSuburbs "7 McAdam RD PORT AUGUSTA (3743)" ≠
      "7 McAdam RD, PORT AUGUSTA, SA 5700" := by decide

/-- C2 amended: the cited `formatAddress` does not strip a trailing
parenthesised numeric suffix; the suffixed example input is returned
unchanged (no suburb is recognised), while the same address without the
suffix yields the claimed normalised form. -/
theorem formatAddress_suffix_unchanged :
    formatAddress portAugustaSuburbs "7 McAdam RD PORT AUGUSTA (3743)" =
      "7 McAdam RD PORT AUGUSTA (3743)" ∧
    formatAddress portAugustaSuburbs "7 McAdam RD PORT AUGUSTA" =
      "7 McAdam RD, PORT AUGUSTA, SA 5700" := by decide

section
attribute [local semireducible] Rat.add Rat.mul Rat.sub Rat.inv

/-- C1: on a band where a received-date fragment is found (here `c1RecvDate`,
whose text parses to 2018-03-02), the emitted record's `receivedDate` is
nevertheless the date parsed from the application-date fragment (2018-03-01):
the source's `receivedDateElement` is computed and then ignored, contradicting
the claim that the found fragment's text is used. -/
theorem receivedDate_ignores_found_fragment :
    findReceivedDateElement c1Band c1AppAnchor c1AppDate = some c1RecvDate ∧
    (parseDMMYYYY (strTrim c1RecvDate.text)).map formatYYYYMMDD =
      some "2018-03-02" ∧
    (parseApplicationElements [] "2018-10-20" "url" c1Band c1Marker
        c1Applicant c1AppAnchor c1Proposal none).map Record.receivedDate =
      some "2018-03-01" := by decide

/-- C4: a marker-word walk that accumulates two matches with equal edit
distance thresholds (both 1 here) does not produce the claimed tie-break by
length closeness to "Lodgement"; the best-match reduce dereferences the
missing `text` property of a match object and throws a TypeError, which
propagates out of `findStartElements`. -/
theorem findStartElements_tie_throws :
    walkGo c4Page 10 c4El1 [] [] = [(c4El1, 1), (c4El2, 1)] ∧
    findStartElements c4Page = Except.error () := by decide

end

section
attribute [local semireducible] Rat.add Rat.mul Rat.sub Rat.inv

/-- C5 counterexample: on the page `c5Page` the start markers are `c5M1` and
`c5M2`, yet the fragment `c5F` belongs to both band 0 and band 1 — the bands
do not partition the page (the raised top of band 1 lies strictly below band
0's bottom). -/
theorem bands_overlap_cex :
    findStartElements c5Page = Except.ok [c5M1, c5M2] ∧
    (bands c5Page [c5M1, c5M2]).map Prod.snd = [[c5M1, c5F], [c5F, c5M2]] ∧
    c5F ∈ [c5M1, c5F] ∧ c5F ∈ [c5F, c5M2] := by decide

end

/-- C5 amended: each band's fragment set is exactly the fragments `e` with
`e.y ≥ top` and `e.y + e.height < bottom`, where the top comes from the
raised marker `i` and the bottom from `getRowTop` of the unraised marker
`i+1` (no bound for the last band); the bands however need not partition the
page — consecutive bands can share fragments and a fragment straddling a
band's bottom can lie in no band. -/
theorem bands_membership (els : List Element) :
    ∀ (ss : List Element) (i : ℕ) (b : Element × List Element),
      (bands els ss).get? i = some b →
      ∃ s, ss.get? i = some s ∧ b.1 = s ∧
        b.2 = els.filter (bandPred (getRowTop els (raisedBy s))
          (bandBottom els (ss.drop (i + 1)))) := by
  intro ss
  induction ss with
  | nil => intro i b h; simp [bands] at h
  | cons s rest ih =>
    intro i b h
    cases i with
    | zero =>
      simp only [bands, List.get?] at h
      have hb := Option.some.inj h
      refine ⟨s, rfl, ?_, ?_⟩
      · rw [← hb]
      · rw [← hb]; simp
    | succ i =>
      simp only [bands, List.get?] at h
      exact ih i b h

section
attribute [local semireducible] Rat.add Rat.mul Rat.sub Rat.inv

/-- Witness for C5's amended statement at band 0 of the concrete page. -/
theorem bands_membership_witness :
    ∃ s, ([c5M1, c5M2] : List Element).get? 0 = some s ∧
      (c5M1, [c5M1, c5F]).1 = s ∧
      (c5M1, [c5M1, c5F]).2 = c5Page.filter (bandPred
        (getRowTop c5Page (raisedBy s))
        (bandBottom c5Page (([c5M1, c5M2] : List Element).drop (0 + 1)))) :=
  bands_membership c5Page [c5M1, c5M2] 0 (c5M1, [c5M1, c5F]) (by decide)

end

/-- C10: if the last fragment of the reading-ordered page passes the
page-number test (its text contains a digit sequence and converts to a number
below 1000), exactly that fragment is removed — the processed list is the
original minus its last entry — and otherwise no fragment is removed. -/
theorem pageNumber_last_removed (els0 : List Element) (l : Element)
    (h : els0.getLast? = some l) :
    (pageNumberCond l = true → pageElements els0 = els0.dropLast ∧
      els0 = pageElements els0 ++ [l]) ∧
    (pageNumberCond l = false → pageElements els0 = els0) := by
  have hne : els0 ≠ [] := by
    intro he; subst he; simp at h
  have hl : els0.getLast hne = l := by
    have h2 := List.getLast?_eq_getLast els0 hne
    rw [h] at h2
    exact (Option.some.inj h2).symm
  constructor
  · intro hc
    have hp : pageElements els0 = els0.dropLast := by
      unfold pageElements; rw [h]; dsimp only; rw [hc]; simp
    refine ⟨hp, ?_⟩
    rw [hp]
    conv_lhs => rw [← List.dropLast_append_getLast hne]
    rw [hl]
  · intro hc
    unfold pageElements; rw [h]; dsimp only; rw [hc]; simp

section
attribute [local semireducible] Rat.add Rat.mul Rat.sub Rat.inv

/-- Witness for C10 on a concrete page ending in the fragment "3". -/
theorem pageNumber_last_removed_witness :
    pageElements c10Page = c10Page.dropLast ∧
    c10Page = pageElements c10Page ++ [c10Num] :=
  (pageNumber_last_removed c10Page c10Num (by decide)).1 (by decide)

end

/-- C3 counterexample: a page with no fragments at all lacks every heading
anchor, yet the engine does not reject it quietly — the source reads
`elements[elements.length - 1].text` of `undefined` and throws a TypeError,
modelled by `Except.error ()`, which the caller receives. -/
theorem empty_page_typeerror :
    parsePageInto [] "" "" [] [] = Except.error () := rfl

/-- C3 amended: for every NON-EMPTY page lacking a required heading anchor
("Applicant", "Application" or "Proposal"), the engine produces zero records
for that page and raises no exception, and the other pages of the document
are processed exactly as if the page were absent; a page with no fragments
instead raises a TypeError. -/
theorem missing_anchor_page_skipped (suburbs : List (String × String))
    (today url : String) (pages1 pages2 : List (List Element))
    (bad : List Element) (hne : bad ≠ [])
    (hmiss : (∀ e ∈ bad, strTrim e.text ≠ "Applicant") ∨
      (∀ e ∈ bad, strTrim e.text ≠ "Application") ∨
      (∀ e ∈ bad, strTrim e.text ≠ "Proposal")) :
    parsePageInto suburbs today url [] bad = Except.ok [] ∧
    parseDocument suburbs today url (pages1 ++ bad :: pages2) =
      parseDocument suburbs today url (pages1 ++ pages2) :=
  ⟨parsePageInto_missing_anchor suburbs today url [] bad hne hmiss,
    foldl_pages_skip suburbs today url bad hne hmiss pages1 pages2 []⟩

/-- The anchorless single-fragment page used by the C3 witness. -/
theorem missing_anchor_page_skipped_witness :
    parsePageInto [] "" "" [] [Element.mk "hello" 0 0 5 5] = Except.ok [] ∧
    parseDocument [] "" "" ([] ++ [Element.mk "hello" 0 0 5 5] :: []) =
      parseDocument [] "" "" ([] ++ []) :=
  missing_anchor_page_skipped [] "" "" [] [] [Element.mk "hello" 0 0 5 5]
    (by decide) (Or.inl (by decide))

/-- C8: a record produced for a band where the optional "Referrals/" anchor
is absent carries the placeholder description "No Description Provided", and
more generally every produced record whose extracted description text trims
to empty carries the placeholder rather than an empty string (`parsePageInto`
only rejects a page for the three required anchors, never for "Referrals/"). -/
theorem description_placeholder (suburbs : List (String × String))
    (today url : String) (els : List Element)
    (start applicant application proposal : Element) :
    (∀ r, parseApplicationElements suburbs today url els start applicant
        application proposal none = some r →
      r.description = "No Description Provided") ∧
    (∀ (referrals : Option Element) r,
      parseApplicationElements suburbs today url els start applicant
        application proposal referrals = some r →
      strTrim (rawDescription els proposal referrals) = "" →
      r.description = "No Description Provided") := by
  have main : ∀ (referrals : Option Element) r,
      parseApplicationElements suburbs today url els start applicant
        application proposal referrals = some r →
      strTrim (rawDescription els proposal referrals) = "" →
      r.description = "No Description Provided" := by
    intro referrals r h hdesc
    unfold parseApplicationElements at h
    split at h
    · exact Option.noConfusion h
    · split at h
      · exact Option.noConfusion h
      · have hr := Option.some.inj h
        rw [← hr]
        dsimp only
        rw [if_pos hdesc]
  exact ⟨fun r h => main none r h rfl, main⟩

section
attribute [local semireducible] Rat.add Rat.mul Rat.sub Rat.inv

/-- Witness for C8: the concrete band `c1Band` is parsed with no "Referrals/"
anchor and its record carries the placeholder description. -/
theorem description_placeholder_witness :
    (Record.mk "123/4567" "" "No Description Provided" "u" CommentUrl "d"
      "2018-03-01").description = "No Description Provided" :=
  (description_placeholder [] "d" "u" c1Band c1Marker c1Applicant c1AppAnchor
    c1Proposal).1 _ (by decide)

end

/-! ## The application-number search (C6) -/

/-- When the progressive-concatenation loop fails, no prefix concatenation
matches the slash-and-four-digits pattern. -/
theorem findAppNumberGo_none :
    ∀ (cands : List Element) (acc : String),
      findAppNumberGo acc cands = none →
      ∀ k, 1 ≤ k → k ≤ cands.length →
        endsSlash4 (acc ++ concatStrip (cands.take k)) = false := by
  intro cands
  induction cands with
  | nil => intro acc h k h1 h2; simp at h2; omega
  | cons e rest ih =>
    intro acc h k h1 h2
    unfold findAppNumberGo at h
    dsimp only at h
    by_cases he : endsSlash4 (acc ++ stripWS e.text) = true
    · rw [if_pos he] at h; exact Option.noConfusion h
    · rw [if_neg he] at h
      cases k with
      | zero => omega
      | succ k =>
        cases k with
        | zero =>
          simp only [List.take, concatStrip, str_append_empty]
          exact Bool.eq_false_iff.mpr he
        | succ k =>
          have hk := ih (acc ++ stripWS e.text) h (k + 1) (by omega)
            (by simp at h2 ⊢; omega)
          simp only [List.take, concatStrip]
          rw [str_append_assoc] at hk
          exact hk

/-- When the progressive-concatenation loop succeeds, the result is the first
(least `k`) prefix concatenation matching the slash-and-four-digits
pattern. -/
theorem findAppNumberGo_some :
    ∀ (cands : List Element) (acc t : String),
      findAppNumberGo acc cands = some t →
      ∃ k, 1 ≤ k ∧ k ≤ cands.length ∧
        t = acc ++ concatStrip (cands.take k) ∧ endsSlash4 t = true ∧
        ∀ j, 1 ≤ j → j < k →
          endsSlash4 (acc ++ concatStrip (cands.take j)) = false := by
  intro cands
  induction cands with
  | nil => intro acc t h; exact Option.noConfusion h
  | cons e rest ih =>
    intro acc t h
    unfold findAppNumberGo at h
    dsimp only at h
    by_cases he : endsSlash4 (acc ++ stripWS e.text) = true
    · rw [if_pos he] at h
      have ht := Option.some.inj h
      refine ⟨1, le_refl 1, by simp, ?_, ?_, fun j hj1 hj2 => by omega⟩
      · simp only [List.take, concatStrip, str_append_empty]
        exact ht.symm
      · rw [← ht]; exact he
    · rw [if_neg he] at h
      obtain ⟨k, hk1, hk2, hk3, hk4, hk5⟩ := ih (acc ++ stripWS e.text) t h
      refine ⟨k + 1, by omega, by simp; omega, ?_, hk4, ?_⟩
      · simp only [List.take, concatStrip]
        rw [str_append_assoc] at hk3
        exact hk3
      · intro j hj1 hj2
        cases j with
        | zero => omega
        | succ j =>
          cases j with
          | zero =>
            simp only [List.take, concatStrip, str_append_empty]
            exact Bool.eq_false_iff.mpr he
          | succ j =>
            have := hk5 (j + 1) (by omega) (by omega)
            simp only [List.take, concatStrip]
            rw [str_append_assoc] at this
            exact this

/-- C6: the application number of a band is found by sorting left-to-right
the band fragments left of the "Applicant" anchor and within two start-marker
heights of the band's start, progressively concatenating the first 1, 2, 3,
... of them with whitespace removed, and accepting the first concatenation
ending with a slash and exactly four digits; when no concatenation matches,
the record is not emitted (`parseApplicationElements` returns `none`) and the
assembly loop processes the remaining bands with the accumulator unchanged. -/
theorem applicationNumber_first_match (suburbs : List (String × String))
    (today url : String) (els : List Element)
    (start applicant application proposal : Element)
    (referrals : Option Element) :
    (findApplicationNumber els start applicant = none →
      (parseApplicationElements suburbs today url els start applicant
        application proposal referrals = none ∧
      ∀ k, 1 ≤ k → k ≤ (appNumberCandidates els start applicant).length →
        endsSlash4 (concatStrip ((appNumberCandidates els start applicant).take k)) =
          false)) ∧
    (∀ t, findApplicationNumber els start applicant = some t →
      ∃ k, 1 ≤ k ∧ k ≤ (appNumberCandidates els start applicant).length ∧
        t = concatStrip ((appNumberCandidates els start applicant).take k) ∧
        endsSlash4 t = true ∧
        ∀ j, 1 ≤ j → j < k →
          endsSlash4 (concatStrip ((appNumberCandidates els start applicant).take j)) =
            false) ∧
    (∀ (acc : List Record) (s : Element) (ges : List Element)
        (rest : List (Element × List Element)),
      parseApplicationElements suburbs today url ges s applicant application
        proposal referrals = none →
      assembleGroups suburbs today url applicant application proposal
        referrals acc ((s, ges) :: rest) =
        assembleGroups suburbs today url applicant application proposal
          referrals acc rest) := by
  refine ⟨fun hnone => ⟨?_, ?_⟩, fun t ht => ?_, fun acc s ges rest h => ?_⟩
  · unfold parseApplicationElements
    rw [hnone]
  · intro k hk1 hk2
    have := findAppNumberGo_none (appNumberCandidates els start applicant) ""
      hnone k hk1 hk2
    rwa [str_empty_append] at this
  · obtain ⟨k, hk1, hk2, hk3, hk4, hk5⟩ :=
      findAppNumberGo_some (appNumberCandidates els start applicant) "" t ht
    rw [str_empty_append] at hk3
    refine ⟨k, hk1, hk2, hk3, hk4, fun j hj1 hj2 => ?_⟩
    have := hk5 j hj1 hj2
    rwa [str_empty_append] at this
  · simp only [assembleGroups, h]

/-- Witness for C6: a band with no fragments yields no record, and the
assembly loop drops it while continuing with the remaining bands. -/
theorem applicationNumber_first_match_witness :
    assembleGroups [] "d" "u" c1Applicant c1AppAnchor c1Proposal none []
      [(c1Marker, [])] =
    assembleGroups [] "d" "u" c1Applicant c1AppAnchor c1Proposal none [] [] :=
  (applicationNumber_first_match [] "d" "u" [] c1Marker c1Applicant
    c1AppAnchor c1Proposal none).2.2 [] c1Marker [] [] (by rfl)

/-! ## Duplicate-number suffixing (C7) -/

/-- A digit character's value inverts `Nat.digitChar` below 10. -/
theorem digitVal_digitChar {n : ℕ} (h : n < 10) :
    digitVal (Nat.digitChar n) = n := by
  interval_cases n <;> rfl

/-- Value of `digitsToNat` over an appended digit. -/
theorem digitsToNat_append_one (xs : List Char) (c : Char) :
    digitsToNat (xs ++ [c]) = digitsToNat xs * 10 + digitVal c := by
  unfold digitsToNat
  rw [List.foldl_append]
  rfl

/-- The function `digitsToNat` inverts `natToStringAux` when the fuel suffices. -/
theorem digitsToNat_natToStringAux :
    ∀ (fuel n : ℕ), n < fuel → digitsToNat (natToStringAux fuel n) = n := by
  intro fuel
  induction fuel with
  | zero => intro n h; omega
  | succ fuel ih =>
    intro n h
    unfold natToStringAux
    by_cases hn : n < 10
    · rw [if_pos hn]
      show digitsToNat [Nat.digitChar n] = n
      unfold digitsToNat
      simp [digitVal_digitChar hn]
    · rw [if_neg hn]
      rw [digitsToNat_append_one]
      have hdiv : n / 10 < fuel := by
        have h1 : n / 10 < n := Nat.div_lt_self (by omega) (by omega)
        omega
      rw [ih (n / 10) hdiv, digitVal_digitChar (Nat.mod_lt n (by omega))]
      omega

/-- The decimal rendering of naturals is injective. -/
theorem natToString_inj {m n : ℕ} (h : natToString m = natToString n) :
    m = n := by
  have hd : natToStringAux (m + 1) m = natToStringAux (n + 1) n := by
    unfold natToString at h
    have := congrArg String.data h
    simpa using this
  have hm := digitsToNat_natToStringAux (m + 1) m (by omega)
  have hn := digitsToNat_natToStringAux (n + 1) n (by omega)
  rw [← hm, ← hn, hd]

/-- The suffixed application numbers are distinct for distinct suffixes. -/
theorem suffixed_inj (orig : String) {m n : ℕ}
    (h : suffixed orig m = suffixed orig n) : m = n := by
  apply natToString_inj
  unfold suffixed at h
  have hdata : (orig ++ " (").data ++ ((natToString m).data ++ [')']) =
      (orig ++ " (").data ++ ((natToString n).data ++ [')']) := by
    have h1 := congrArg String.data h
    simpa [String.data_append, List.append_assoc] using h1
  apply String.ext
  have h2 := List.append_cancel_left hdata
  exact List.append_cancel_right h2

/-- A conflicting candidate shares its application number with an
accumulated record. -/
theorem hasConflict_number {acc : List Record} {r : Record}
    (h : hasConflict acc r = true) :
    ∃ o ∈ acc, o.applicationNumber = r.applicationNumber := by
  unfold hasConflict at h
  rw [List.any_eq_true] at h
  obtain ⟨o, ho, hc⟩ := h
  unfold differingCollision at hc
  rw [Bool.and_eq_true] at hc
  exact ⟨o, ho, by simpa using hc.1⟩

/-- Pigeonhole: among the suffixes `1 .. acc.length + 1` some suffixed number
is free of differing-content collisions. -/
theorem exists_free_suffix (acc : List Record) (r : Record) (orig : String) :
    ∃ n, 1 ≤ n ∧ n ≤ acc.length + 1 ∧
      hasConflict acc (withNumber r (suffixed orig n)) = false := by
  by_contra hno
  push_neg at hno
  have hall : ∀ n ∈ Finset.Icc 1 (acc.length + 1),
      ∃ o ∈ acc, o.applicationNumber = suffixed orig n := by
    intro n hn
    obtain ⟨h1, h2⟩ := Finset.mem_Icc.mp hn
    have hc : hasConflict acc (withNumber r (suffixed orig n)) = true := by
      have := hno n h1 h2
      cases hb : hasConflict acc (withNumber r (suffixed orig n)) with
      | false => exact absurd hb this
      | true => rfl
    obtain ⟨o, ho, hoe⟩ := hasConflict_number hc
    exact ⟨o, ho, hoe⟩
  classical
  set f : ℕ → Record := fun n =>
    if h : ∃ o ∈ acc, o.applicationNumber = suffixed orig n then h.choose
    else ⟨"", "", "", "", "", "", ""⟩ with hf
  have maps : ∀ n ∈ Finset.Icc 1 (acc.length + 1), f n ∈ acc.toFinset := by
    intro n hn
    have h := hall n hn
    simp only [hf, dif_pos h]
    exact List.mem_toFinset.mpr h.choose_spec.1
  have hcard : acc.toFinset.card < (Finset.Icc 1 (acc.length + 1)).card := by
    rw [Nat.card_Icc]
    have := acc.toFinset_card_le
    omega
  obtain ⟨x, hx, y, hy, hxy, hfeq⟩ :=
    Finset.exists_ne_map_eq_of_card_lt_of_maps_to hcard maps
  have hxn : (f x).applicationNumber = suffixed orig x := by
    simp only [hf, dif_pos (hall x hx)]
    exact (hall x hx).choose_spec.2
  have hyn : (f y).applicationNumber = suffixed orig y := by
    simp only [hf, dif_pos (hall y hy)]
    exact (hall y hy).choose_spec.2
  exact hxy (suffixed_inj orig (by rw [← hxn, ← hyn, hfeq]))

/-- The suffixing loop reaches the least free suffix at or after its starting
point, given a free suffix within its fuel. -/
theorem resolveGo_reaches_free (acc : List Record) (orig : String) (r : Record) :
    ∀ (fuel n : ℕ),
      (∃ m, n ≤ m ∧ m < n + fuel ∧
        hasConflict acc (withNumber r (suffixed orig m)) = false) →
      ∃ m, n ≤ m ∧
        resolveGo acc orig r fuel n = withNumber r (suffixed orig m) ∧
        hasConflict acc (withNumber r (suffixed orig m)) = false ∧
        ∀ j, n ≤ j → j < m →
          hasConflict acc (withNumber r (suffixed orig j)) = true := by
  intro fuel
  induction fuel with
  | zero =>
    intro n h
    obtain ⟨m, h1, h2, _⟩ := h
    omega
  | succ fuel ih =>
    intro n hex
    by_cases hc : hasConflict acc (withNumber r (suffixed orig n)) = true
    · have hex2 : ∃ m, n + 1 ≤ m ∧ m < (n + 1) + fuel ∧
          hasConflict acc (withNumber r (suffixed orig m)) = false := by
        obtain ⟨m, h1, h2, h3⟩ := hex
        have hmn : m ≠ n := by
          intro he
          rw [he, hc] at h3
          exact Bool.noConfusion h3
        exact ⟨m, by omega, by omega, h3⟩
      obtain ⟨m, hm1, hm2, hm3, hm4⟩ := ih (n + 1) hex2
      refine ⟨m, by omega, ?_, hm3, ?_⟩
      · simp only [resolveGo, hc, if_true]
        exact hm2
      · intro j hj1 hj2
        by_cases hje : j = n
        · rw [hje]; exact hc
        · exact hm4 j (by omega) hj2
    · have hcf : hasConflict acc (withNumber r (suffixed orig n)) = false :=
        Bool.eq_false_iff.mpr hc
      refine ⟨n, le_refl n, ?_, hcf,
        fun j hj1 hj2 => absurd (hj1.trans_lt hj2) (lt_irrefl n)⟩
      simp only [resolveGo, hcf]
      rfl

/-- C7: when a freshly extracted record's application number collides with an
accumulated record of differing address, description or received date, the
assembler renames it to `orig (n)` for the least `n = 1, 2, ...` at which no
differing-content collision remains; a record repeating a number with no
differing-content collision (in particular with identical address,
description and received date) keeps its number unchanged, and the other
fields are never altered. -/
theorem duplicate_number_suffixing (acc : List Record) (r : Record) :
    (hasConflict acc r = false → resolveNumber acc r = r) ∧
    (hasConflict acc r = true → ∃ n, 1 ≤ n ∧
      resolveNumber acc r = withNumber r (suffixed r.applicationNumber n) ∧
      hasConflict acc (withNumber r (suffixed r.applicationNumber n)) = false ∧
      ∀ j, 1 ≤ j → j < n →
        hasConflict acc (withNumber r (suffixed r.applicationNumber j)) = true) ∧
    ((resolveNumber acc r).address = r.address ∧
     (resolveNumber acc r).description = r.description ∧
     (resolveNumber acc r).receivedDate = r.receivedDate) := by
  have hfree := exists_free_suffix acc r r.applicationNumber
  have hmain : hasConflict acc r = true → ∃ n, 1 ≤ n ∧
      resolveNumber acc r = withNumber r (suffixed r.applicationNumber n) ∧
      hasConflict acc (withNumber r (suffixed r.applicationNumber n)) = false ∧
      ∀ j, 1 ≤ j → j < n →
        hasConflict acc (withNumber r (suffixed r.applicationNumber j)) = true := by
    intro hc
    obtain ⟨m0, hm01, hm02, hm03⟩ := hfree
    obtain ⟨m, hm1, hm2, hm3, hm4⟩ :=
      resolveGo_reaches_free acc r.applicationNumber r (acc.length + 1) 1
        ⟨m0, hm01, by omega, hm03⟩
    refine ⟨m, hm1, ?_, hm3, hm4⟩
    unfold resolveNumber
    rw [hc]
    simpa using hm2
  refine ⟨fun hc => ?_, hmain, ?_⟩
  · unfold resolveNumber
    rw [hc]
    simp
  · by_cases hc : hasConflict acc r = true
    · obtain ⟨n, _, he, _, _⟩ := hmain hc
      rw [he]
      exact ⟨rfl, rfl, rfl⟩
    · have hcf := Bool.eq_false_iff.mpr hc
      unfold resolveNumber
      rw [hcf]
      simp

/-- Witness for C7: a record repeating an accumulated number with identical
address, description and received date is kept unchanged. -/
theorem duplicate_number_suffixing_witness :
    resolveNumber [c7r1] c7r1 = c7r1 :=
  (duplicate_number_suffixing [c7r1] c7r1).1 (by decide)

/-- Concrete evaluation of the suffixing loop: a second record with the same
number but a differing description is renamed to `11/2020 (1)`. -/
theorem resolveNumber_concrete_suffix_eval :
    resolveNumber [c7r1] c7r2 = { c7r2 with applicationNumber := "11/2020 (1)" } := by
  decide

end LightScraper
